import Mathlib

/-!
Verification development for the `beheader` polyglot generator
(`beheader.py`).  The byte-level core of the program is embedded
shallowly: byte strings become `List Nat` (each element a byte value),
Python `bytearray` slice assignment becomes `pySetSlice` (which, like
Python, can grow the buffer when the addressed slice is clipped at the
end), `bytes.find` becomes `pyFind` (returning `-1` on failure, as in
Python), and pieces of code that can raise return `Option`.
-/

namespace Beheader

/-- Bytes of an ASCII string: `s.encode("utf-8")` for ASCII `s`. -/
def strBytes (s : String) : List Nat := s.data.map Char.toNat

/-- `number_to_4b_le` (beheader.py line 18): `int(num).to_bytes(4, "little")`.
Python raises `OverflowError` when the value does not fit four bytes, so the
embedding returns `none` there. -/
def number_to_4b_le (num : Nat) : Option (List Nat) :=
  if num < 4294967296 then
    some [num % 256, num / 256 % 256, num / 65536 % 256, num / 16777216 % 256]
  else none

/-- `number_to_4b_be` (beheader.py line 22): `int(num).to_bytes(4, "big")`. -/
def number_to_4b_be (num : Nat) : Option (List Nat) :=
  if num < 4294967296 then
    some [num / 16777216 % 256, num / 65536 % 256, num / 256 % 256, num % 256]
  else none

/-- `int.from_bytes(l, "big")`. -/
def fromBytesBE (l : List Nat) : Nat := l.foldl (fun a b => a * 256 + b) 0

/-- `int.from_bytes(l, "little")`. -/
def fromBytesLE (l : List Nat) : Nat := fromBytesBE l.reverse

/-- Python slice read `l[a:b]` (for `0 ≤ a ≤ b`): clipped at the ends. -/
def pySlice (l : List Nat) (a b : Nat) : List Nat := (l.drop a).take (b - a)

/-- Python `bytearray` slice assignment `l[a:b] = repl` (for `0 ≤ a ≤ b`):
the addressed range is clipped to the buffer, and the replacement need not
have the same length as the range, in which case the buffer shrinks or
grows. -/
def pySetSlice (l : List Nat) (a b : Nat) (repl : List Nat) : List Nat :=
  let a' := min a l.length
  let b' := max a' (min b l.length)
  l.take a' ++ repl ++ l.drop b'

/-- Scanner underlying `pyFind`: first absolute index `≥ i` at which `sub`
occurs in the remaining list. -/
def pyFindAux (sub : List Nat) : List Nat → Nat → Int
  | [], i => if sub.isPrefixOf ([] : List Nat) then Int.ofNat i else -1
  | x :: t, i => if sub.isPrefixOf (x :: t) then Int.ofNat i else pyFindAux sub t (i + 1)

/-- `data.find(sub, start)` (beheader.py lines 26-28, `find_sub_array_index`)
for nonempty `sub`: lowest index `≥ start` where `sub` occurs, else `-1`. -/
def pyFind (data sub : List Nat) (start : Nat) : Int :=
  pyFindAux sub (data.drop start) start

/-- `pad_left` (beheader.py lines 31-33) applied to an integer:
`"0" * max(0, target_len - len(str(s))) + str(s)`. -/
def pad_left (n : Nat) (target_len : Nat) : String :=
  let s := toString n
  String.mk (List.replicate (target_len - s.length) '0') ++ s

/-- Python byte whitespace, as stripped by `str.strip()` on ASCII text. -/
def isPyWhitespace (b : Nat) : Bool :=
  b == 32 || b == 9 || b == 10 || b == 13 || b == 11 || b == 12

/-- `.strip()` on the bytes of an ASCII string. -/
def pyStrip (l : List Nat) : List Nat :=
  ((l.dropWhile isPyWhitespace).reverse.dropWhile isPyWhitespace).reverse

def isDigitByte (b : Nat) : Bool := 48 ≤ b && b ≤ 57

/-- Decimal value of a nonempty all-digit byte string, else `none`. -/
def parseDigits (l : List Nat) : Option Nat :=
  if l ≠ [] && l.all isDigitByte then
    some (l.foldl (fun a b => a * 10 + (b - 48)) 0)
  else none

/-- Models `int(bs.decode("utf-8").strip())` for the ASCII decimal fields the
program applies it to: strip whitespace, then require a nonempty digit
string; any other input makes Python raise, modelled as `none`. -/
def parsePyNat (l : List Nat) : Option Nat := parseDigits (pyStrip l)

/-- Models `int(header.strip().replace("\x0An", " ").split(" ")[-1])` from
beheader.py line 181: strip, replace newlines by spaces, take the text after
the last space, parse as decimal. -/
def parse_xref_count (l : List Nat) : Option Nat :=
  let t := (pyStrip l).map (fun b => if b == 10 then 32 else b)
  parseDigits ((t.reverse.takeWhile (fun b => b ≠ 32)).reverse)

/-- `build_skip_atom` (beheader.py lines 45-50), with the image bytes and the
(already UTF-8 encoded) hypertext string as inputs: payload is hypertext
bytes followed by image bytes, headed by a big-endian `len(payload) + 8` and
the tag `"skip"`.  A pure function of its two inputs. -/
def build_skip_atom (pngBytes htmlBytes : List Nat) : Option (List Nat) :=
  let skip_data := htmlBytes ++ pngBytes
  (number_to_4b_be (skip_data.length + 8)).map fun skip_head_size =>
    skip_head_size ++ strBytes "skip" ++ skip_data

/-- The 32-byte canonical `ftyp` box template written at bytes 256-287
(beheader.py lines 89-94). -/
def canonical_ftyp_template : List Nat :=
  [0x00, 0x00, 0x00, 0x20, 0x66, 0x74, 0x79, 0x70,
   0x69, 0x73, 0x6f, 0x6d, 0x00, 0x00, 0x02, 0x00,
   0x69, 0x73, 0x6f, 0x6d, 0x69, 0x73, 0x6f, 0x32,
   0x61, 0x76, 0x63, 0x31, 0x6d, 0x70, 0x34, 0x31]

/-- The buffer state after beheader.py lines 85-96: `bytearray(256 + 32)`
with the two size markers, the `"ftyp"` tag, the canonical template at
256-287, the mid-buffer box size at 12, and the little-endian image size at
14-17. -/
def ftyp_buffer_base (pngSizeBytes : List Nat) : List Nat :=
  let b0 := List.replicate (256 + 32) 0
  let b1 := b0.set 2 1
  let b2 := b1.set 3 32
  let b3 := pySetSlice b2 4 8 (strBytes "ftyp")
  let b4 := pySetSlice b3 256 288 canonical_ftyp_template
  let b5 := b4.set 12 32
  pySetSlice b5 14 18 pngSizeBytes

/-- The header splices common to every run (beheader.py lines 85-96 and
132-141): the base buffer, then the image offset
`len(ftyp_buffer) + len(skip_atom[:8]) + len(html_bytes)` written
little-endian at 18-21 (computed from the buffer's length before any
splice), the box-size field rewritten to `[1,0,0,0]`, the brand bytes at
240-255, the spliced extra bytes at 22, and the comment-opening marker
`"<!--"` after them.  `none` models the `OverflowError` from `to_bytes`
when a 4-byte field overflows. -/
def build_ftyp_common (pngSize htmlLen : Nat) (skipAtom extra : List Nat) :
    Option (List Nat) :=
  match number_to_4b_le pngSize with
  | none => none
  | some pngSizeBytes =>
    match number_to_4b_le ((ftyp_buffer_base pngSizeBytes).length +
        (skipAtom.take 8).length + htmlLen) with
    | none => none
    | some offsetBytes =>
      some (pySetSlice
        (pySetSlice
          (pySetSlice
            (pySetSlice (pySetSlice (ftyp_buffer_base pngSizeBytes) 18 22 offsetBytes)
              4 8 [1, 0, 0, 0])
            240 256 (strBytes "isomiso2avc1mp41"))
          22 (22 + extra.length) extra)
        (22 + extra.length) (22 + extra.length + 4) (strBytes "<!--"))

/-- Markup prepended to the hypertext file contents (beheader.py line 121). -/
def html_prefix_markup : List Nat :=
  strBytes "--><style>body\x7bfont-size:0\x7d</style><div style=font-size:initial>"

/-- Markup appended to the hypertext file contents (beheader.py line 123). -/
def html_suffix_markup : List Nat :=
  strBytes "</div><!--"

/-- The UTF-8 bytes of `html_string` (beheader.py lines 118-124): empty when
no hypertext file is given, otherwise the raw file bytes wrapped in the
fixed markup (UTF-8 encoding of a concatenation is the concatenation of the
encodings, so wrapping is byte-level concatenation). -/
def html_bytes_of : Option (List Nat) → List Nat
  | none => []
  | some raw => html_prefix_markup ++ raw ++ html_suffix_markup

/-- Leading-box strip (beheader.py lines 128-130): read the first four bytes
big-endian and drop that many leading bytes; like the Python slice
`orig_bytes[orig_ftyp_size:]` this clips and never fails. -/
def strip_leading_box (origBytes : List Nat) : List Nat :=
  origBytes.drop (fromBytesBE (pySlice origBytes 0 4))

/-- Container reassembly (beheader.py line 162):
`final_mp4 = bytes(ftyp_buffer) + skip_atom + rest_bytes`. -/
def reassemble (hdr skipAtom origBytes : List Nat) : List Nat :=
  hdr ++ skipAtom ++ strip_leading_box origBytes

/-- Post-write fix (beheader.py lines 164-166): seek to offset 3 and write a
single zero byte. -/
def fix_byte3 (l : List Nat) : List Nat := l.set 3 0

/-- The document-object header string rendered inside the fixed-point search
(beheader.py lines 152-154):
`f"\x0An1 0 obj\x0An<</Length {lengthValue}>>\x0Anstream\x0An"` with real newlines. -/
def obj_string (lengthValue : Int) : String :=
  "\x0A1 0 obj\x0A<</Length " ++ toString lengthValue ++ ">>\x0Astream\x0A"

/-- The `while True` fixed-point search of beheader.py lines 150-156, made
observable by a fuel argument: starting from `offset`, decrement, render the
object header string for `c - offset` (`c` stands for
`mp4_size - atom_free_addr - len(extra_bytes)`), and stop when the decremented
offset equals the rendered string's length.  `none` means the given number of
iterations of the source loop did not exit. -/
def find_obj_string (c : Int) : Int → Nat → Option String
  | _, 0 => none
  | offset, fuel + 1 =>
    let offset' := offset - 1
    let s := obj_string (c - offset')
    if offset' = Int.ofNat s.length then some s else find_obj_string c offset' fuel

/-- The search as entered by the source (beheader.py lines 149-156):
`offset = 30 + len(str(mp4_size))`, then the decrement loop. -/
def search_obj_string (mp4_size atom_free_addr extraLen : Nat) (fuel : Nat) :
    Option String :=
  find_obj_string ((mp4_size : Int) - (atom_free_addr : Int) - (extraLen : Int))
    (30 + (toString mp4_size).length) fuel

/-- The document-path header splices (beheader.py lines 143-160), entered
with `b` the buffer state after the comment-marker splice, when
`atom_free_addr = 26 + len(extra_bytes)`:
`mp4_size = len(ftyp_buffer) + len(skip_atom) + len(rest_bytes)` is read
from the current buffer length; the single-index write
`ftyp_buffer[atom_free_addr] = 0x0A` raises `IndexError` when the cursor is
at or past the end (modelled as `none`); the 9-byte document prefix is
spliced at `atom_free_addr + 1`; the fixed-point search renders the
object-header string (`none` when it has not exited within `fuel`
iterations, cf. the unbounded source loop); and the object-header bytes are
spliced at `start = atom_free_addr + 10 + len(extra_bytes)`
(i.e. `36 + 2*len(extra_bytes)`), a slice assignment that can grow the
buffer. -/
def splice_pdf_header (b : List Nat) (extra pdfBytes : List Nat)
    (skipLen restLen fuel : Nat) : Option (List Nat) :=
  let mp4_size := b.length + skipLen + restLen
  let atom_free_addr := 26 + extra.length
  if atom_free_addr < b.length then
    let b1 := b.set atom_free_addr 10
    let b2 := pySetSlice b1 (atom_free_addr + 1) (atom_free_addr + 10) (pdfBytes.take 9)
    match search_obj_string mp4_size (atom_free_addr + 10) extra.length fuel with
    | none => none
    | some s =>
      let obj_bytes := strBytes s
      let start := atom_free_addr + 10 + extra.length
      some (pySetSlice b2 start (start + obj_bytes.length) obj_bytes)
  else none

/-- The full fixed header region (beheader.py lines 85-96 and 132-160): the
splices common to every run, followed — when a document is attached — by
the document-path splices. -/
def build_ftyp_buffer (pngSize htmlLen : Nat) (skipAtom extra : List Nat)
    (pdf : Option (List Nat)) (restLen fuel : Nat) : Option (List Nat) :=
  (build_ftyp_common pngSize htmlLen skipAtom extra).bind fun b =>
    match pdf with
    | none => some b
    | some pdfBytes => splice_pdf_header b extra pdfBytes skipAtom.length restLen fuel

/-- The condition under which all header splices land inside the fixed
288-byte region: the extra bytes and comment marker fit, and — for a
document-attached run — the document has at least the 9 prefix bytes, the
prefix splice fits, the object-header search exits within `fuel`
iterations, and the object-header string fits at its splice position
`36 + 2*len(extra_bytes)`. -/
def header_splices_fit (extra : List Nat) (pdf : Option (List Nat))
    (skipLen restLen fuel : Nat) : Prop :=
  match pdf with
  | none => 26 + extra.length ≤ 288
  | some pdfBytes =>
    9 ≤ pdfBytes.length ∧ 36 + extra.length ≤ 288 ∧
    (match search_obj_string (288 + skipLen + restLen) (36 + extra.length)
        extra.length fuel with
     | none => False
     | some s => 36 + 2 * extra.length + (strBytes s).length ≤ 288)

/-- A full run up to the file write and byte-3 fix (beheader.py `main`,
lines 118-166): build the skip atom and the header region (including the
document-path header splices when a document is attached), reassemble,
apply the byte-3 fix.  The document tail, appendables and archive are
appended after this buffer and are covered by the `tail` parameters of the
theorems. -/
instance (extra : List Nat) (pdf : Option (List Nat)) (skipLen restLen fuel : Nat) :
    Decidable (header_splices_fit extra pdf skipLen restLen fuel) := by
  unfold header_splices_fit
  cases pdf with
  | none => exact inferInstance
  | some pdfBytes =>
    cases hs : search_obj_string (288 + skipLen + restLen) (36 + extra.length)
        extra.length fuel with
    | none => exact inferInstance
    | some s => exact inferInstance

def run_beheader (png : List Nat) (html : Option (List Nat))
    (extra origBytes : List Nat) (pdf : Option (List Nat)) (fuel : Nat) :
    Option (List Nat) :=
  let htmlB := html_bytes_of html
  (build_skip_atom png htmlB).bind fun skipAtom =>
    (build_ftyp_buffer png.length htmlB.length skipAtom extra pdf
      (strip_leading_box origBytes).length fuel).map fun hdr =>
      fix_byte3 (reassemble hdr skipAtom origBytes)

/-- `object_terminator` (beheader.py line 169): `b"\x0Anendstream\x0Anendobj\x0An"`. -/
def object_terminator : List Nat := strBytes "\x0Aendstream\x0Aendobj\x0A"

def xref_key : List Nat := strBytes "\x0Axref"

def zeros_key : List Nat := strBytes "\x0A0000000000"

def startxref_key : List Nat := strBytes "\x0Astartxref"

/-- `b"\x0An%%EOF\x0An"` written after the new trailer pointer
(beheader.py line 191). -/
def eof_marker : List Nat := strBytes "\x0A%%EOF\x0A"

/-- The per-entry loop of beheader.py lines 183-187: for each of `count`
entries read the 10-byte field at `curr`, parse it, add `out_size`,
write back `pad_left(new_offset, 10)[:10]` (the rendered string is ASCII, so
taking 10 characters and encoding equals encoding and taking 10 bytes), and
advance `curr` to one past the next newline of the mutated buffer.
`Sum.inl` is the buffer at the moment a parse failure raises (the partial
mutations persist, as with Python's caught exception); `Sum.inr` is the
buffer after all entries. -/
def patchEntries (out_size : Nat) : List Nat → Nat → Nat → List Nat ⊕ List Nat
  | buf, _, 0 => Sum.inr buf
  | buf, curr, n + 1 =>
    match parsePyNat (pySlice buf curr (curr + 10)) with
    | none => Sum.inl buf
    | some offset =>
      let buf' := pySetSlice buf curr (curr + 10)
        ((strBytes (pad_left (offset + out_size) 10)).take 10)
      let curr' := (pyFind buf' [10] (curr + 1) + 1).toNat
      patchEntries out_size buf' curr' n

/-- The defensive zero loop of beheader.py lines 192-193:
`for i in range(k, len(buf)): buf[i] = 0`. -/
def zeroFrom (l : List Nat) (k : Nat) : List Nat :=
  l.take k ++ List.replicate (l.length - k) 0

/-- The trailer-pointer rewrite (beheader.py lines 188-193), on the buffer
left by the entries loop: parse the pointer digits between `sx + 10` and
`sxEnd`, add `out_size`, write the rendered decimal back in place, write
`b"\x0An%%EOF\x0An"` into the 5-byte slice after it, and zero everything from
`sx + len(new) + 17` on.  A parse failure raises and is caught: the buffer
is kept as-is. -/
def patch_trailer (buf1 : List Nat) (sx sxEnd out_size : Nat) : List Nat :=
  match parsePyNat (pySlice buf1 (sx + 10) sxEnd) with
  | none => buf1
  | some startxref =>
    let news := toString (startxref + out_size)
    let buf2 := pySetSlice buf1 (sx + 10) (sx + 10 + news.length) (strBytes news)
    let buf3 := pySetSlice buf2 (sx + 10 + news.length) (sx + 15 + news.length) eof_marker
    zeroFrom buf3 (sx + news.length + 17)

/-- The body of the `try` block after the anchors are found
(beheader.py lines 182-193): run the entries loop, then — unless it raised,
in which case the partially mutated buffer is kept — rewrite the trailer
pointer. -/
def patch_xref (buf0 : List Nat) (offset_start sx sxEnd out_size count : Nat) : List Nat :=
  match patchEntries out_size buf0 offset_start count with
  | Sum.inl b => b
  | Sum.inr buf1 => patch_trailer buf1 sx sxEnd out_size

/-- The document tail patch (beheader.py lines 169-196): prepend the object
terminator, locate the cross-reference anchors, and — unless the anchor
check or a parse raises, in which case the buffer as mutated so far is kept
(the warning path) — shift every entry and the trailer pointer by
`out_size = fileSize + len(object_terminator)`, write the end-of-file
marker, and zero the rest.  The returned buffer is what gets appended to the
output file. -/
def patchPdfTail (pdfBytes : List Nat) (fileSize : Nat) : List Nat :=
  let buf0 := object_terminator ++ pdfBytes
  let xref_start : Int := pyFind buf0 xref_key 0 + 1
  let offset_start : Int := pyFind buf0 zeros_key xref_start.toNat + 1
  let startxref_start : Int := pyFind buf0 startxref_key xref_start.toNat + 1
  let startxref_end : Int := pyFind buf0 [10] (startxref_start + 11).toNat
  if xref_start ≤ 0 ∨ offset_start ≤ 0 ∨ startxref_start ≤ 0 ∨ startxref_end ≤ 0 then
    buf0
  else
    let out_size := fileSize + object_terminator.length
    match parse_xref_count (pySlice buf0 xref_start.toNat offset_start.toNat) with
    | none => buf0
    | some count =>
      patch_xref buf0 offset_start.toNat startxref_start.toNat startxref_end.toNat
        out_size count

/-- Serialized form of one cross-reference entry as the patch loop walks it:
a 10-character zero-padded decimal field, the rest of the line, a newline. -/
def entry_bytes (offset : Nat) (mid : List Nat) : List Nat :=
  strBytes (pad_left offset 10) ++ mid ++ [10]

/-- Serialized run of cross-reference entries. -/
def entries_bytes (es : List (Nat × List Nat)) : List Nat :=
  (es.map fun e => entry_bytes e.1 e.2).flatten

/-- Side conditions on one entry `(offset, rest-of-line)` under which the
patch loop treats it cleanly: the stored and the shifted field are exactly
ten bytes (i.e. both values fit ten decimal digits), both fields parse back
to their values, the shifted field contains no newline byte, and the rest
of the line contains no newline byte. -/
def EntryOk (out_size : Nat) (e : Nat × List Nat) : Prop :=
  (strBytes (pad_left e.1 10)).length = 10 ∧
  parsePyNat (strBytes (pad_left e.1 10)) = some e.1 ∧
  (strBytes (pad_left (e.1 + out_size) 10)).length = 10 ∧
  (10 : Nat) ∉ strBytes (pad_left (e.1 + out_size) 10) ∧
  (10 : Nat) ∉ e.2 ∧
  parsePyNat (strBytes (pad_left (e.1 + out_size) 10)) = some (e.1 + out_size)

instance (out_size : Nat) (e : Nat × List Nat) : Decidable (EntryOk out_size e) := by
  unfold EntryOk
  exact inferInstance

end Beheader

namespace Beheader

lemma number_to_4b_le_eq {n : Nat} {bs : List Nat} (h : number_to_4b_le n = some bs) :
    n < 4294967296 ∧ bs = [n % 256, n / 256 % 256, n / 65536 % 256, n / 16777216 % 256] := by
  unfold number_to_4b_le at h
  split at h
  · exact ⟨by assumption, by injection h with h; exact h.symm⟩
  · exact absurd h (by simp)

lemma number_to_4b_be_eq {n : Nat} {bs : List Nat} (h : number_to_4b_be n = some bs) :
    n < 4294967296 ∧ bs = [n / 16777216 % 256, n / 65536 % 256, n / 256 % 256, n % 256] := by
  unfold number_to_4b_be at h
  split at h
  · exact ⟨by assumption, by injection h with h; exact h.symm⟩
  · exact absurd h (by simp)

lemma fromBytesLE_number_to_4b_le {n : Nat} {bs : List Nat}
    (h : number_to_4b_le n = some bs) : fromBytesLE bs = n := by
  obtain ⟨hn, rfl⟩ := number_to_4b_le_eq h
  simp only [fromBytesLE, fromBytesBE, List.reverse_cons, List.reverse_nil, List.nil_append,
    List.cons_append, List.foldl_cons, List.foldl_nil]
  omega

lemma fromBytesBE_number_to_4b_be {n : Nat} {bs : List Nat}
    (h : number_to_4b_be n = some bs) : fromBytesBE bs = n := by
  obtain ⟨hn, rfl⟩ := number_to_4b_be_eq h
  simp only [fromBytesBE, List.foldl_cons, List.foldl_nil]
  omega

lemma length_number_to_4b_le {n : Nat} {bs : List Nat}
    (h : number_to_4b_le n = some bs) : bs.length = 4 := by
  obtain ⟨-, rfl⟩ := number_to_4b_le_eq h
  rfl

lemma length_number_to_4b_be {n : Nat} {bs : List Nat}
    (h : number_to_4b_be n = some bs) : bs.length = 4 := by
  obtain ⟨-, rfl⟩ := number_to_4b_be_eq h
  rfl

lemma pySetSlice_eq_of_le (l repl : List Nat) (a b : Nat) (hab : a ≤ b)
    (hb : b ≤ l.length) : pySetSlice l a b repl = l.take a ++ repl ++ l.drop b := by
  unfold pySetSlice
  have h1 : min a l.length = a := by omega
  have h2 : min b l.length = b := by omega
  have h3 : max a b = b := by omega
  simp only [h1, h2, h3]

lemma pySetSlice_length_of_fit (l repl : List Nat) (a b : Nat) (hab : a ≤ b)
    (hb : b ≤ l.length) (hr : repl.length = b - a) :
    (pySetSlice l a b repl).length = l.length := by
  rw [pySetSlice_eq_of_le l repl a b hab hb]
  simp only [List.length_append, List.length_take, List.length_drop]
  omega

lemma pySetSlice_append (A X B repl : List Nat) :
    pySetSlice (A ++ X ++ B) A.length (A.length + X.length) repl = A ++ repl ++ B := by
  have h1 : A.length + X.length ≤ (A ++ X ++ B).length := by simp
  rw [pySetSlice_eq_of_le _ _ _ _ (Nat.le_add_right _ _) h1]
  have h2 : (A ++ X ++ B).take A.length = A := by
    rw [List.append_assoc A X B]
    exact List.take_left A (X ++ B)
  have h3 : (A ++ X ++ B).drop (A.length + X.length) = B := List.drop_left' (by simp)
  rw [h2, h3]

lemma pyFindAux_newline (post : List Nat) :
    ∀ (pre : List Nat) (i : Nat), (10 : Nat) ∉ pre →
      pyFindAux [10] (pre ++ 10 :: post) i = Int.ofNat (i + pre.length) := by
  intro pre
  induction pre with
  | nil => intro i _; simp [pyFindAux, List.isPrefixOf]
  | cons x t ih =>
    intro i hmem
    have hx : x ≠ 10 := fun h => hmem (by simp [h])
    simp only [List.cons_append, pyFindAux, List.append_eq]
    rw [if_neg, ih (i + 1) (fun h => hmem (List.mem_cons_of_mem _ h))]
    · have harith : i + 1 + t.length = i + (x :: t).length := by simp; omega
      rw [harith]
    · simp [List.isPrefixOf]
      intro h
      exact absurd h.symm hx

lemma pyFind_newline (L : List Nat) (s : Nat) (pre post : List Nat)
    (hd : L.drop s = pre ++ 10 :: post) (hpre : (10 : Nat) ∉ pre) :
    pyFind L [10] s = Int.ofNat (s + pre.length) := by
  unfold pyFind
  rw [hd, pyFindAux_newline post pre s hpre]

lemma pySlice_setSlice_before (l repl : List Nat) (a b p q : Nat) (hab : a ≤ b)
    (hbp : b ≤ p) (hbl : b ≤ l.length) (hr : repl.length = b - a) :
    pySlice (pySetSlice l a b repl) p q = pySlice l p q := by
  rw [pySetSlice_eq_of_le l repl a b hab hbl]
  unfold pySlice
  have hX : (l.take a ++ repl).length = b := by
    simp only [List.length_append, List.length_take]
    omega
  rw [List.drop_append_eq_append_drop, hX]
  rw [List.drop_eq_nil_of_le (by rw [hX]; exact hbp), List.nil_append, List.drop_drop]
  have hbb : b + (p - b) = p := by omega
  rw [hbb]

lemma pySlice_setSlice_after (l repl : List Nat) (a b p q : Nat)
    (hqa : q ≤ a) (hpq : p ≤ q) (hql : q ≤ l.length) :
    pySlice (pySetSlice l a b repl) p q = pySlice l p q := by
  unfold pySetSlice pySlice
  have hqa' : q ≤ min a l.length := by omega
  rw [List.append_assoc, List.drop_append_eq_append_drop, List.take_append_eq_append_take]
  have hF : ((l.take (min a l.length)).drop p).length = min a l.length - p := by
    simp only [List.length_drop, List.length_take]
    omega
  rw [hF]
  have h0 : q - p - (min a l.length - p) = 0 := by omega
  rw [h0, List.take_zero, List.append_nil]
  rw [List.drop_take, List.take_take]
  have hmin : min (q - p) (min a l.length - p) = q - p := by omega
  rw [hmin]

lemma pySlice_setSlice_write (l repl : List Nat) (p q : Nat) (hpq : p ≤ q)
    (hql : q ≤ l.length) (hr : repl.length = q - p) :
    pySlice (pySetSlice l p q repl) p q = repl := by
  rw [pySetSlice_eq_of_le l repl p q hpq hql]
  unfold pySlice
  rw [List.append_assoc, List.drop_append_eq_append_drop]
  rw [List.drop_eq_nil_of_le (by simp only [List.length_take]; omega : (l.take p).length ≤ p)]
  have hz : p - (l.take p).length = 0 := by
    simp only [List.length_take]
    omega
  rw [hz, List.nil_append, List.drop_zero, List.take_append_eq_append_take]
  rw [← hr, List.take_length]
  have h0 : repl.length - repl.length = 0 := by omega
  rw [h0, List.take_zero, List.append_nil]

lemma drop_set3 (l : List Nat) (v k : Nat) (hk : 4 ≤ k) (hl : 3 < l.length) :
    (l.set 3 v).drop k = l.drop k := by
  rw [List.set_eq_take_cons_drop v hl]
  have hX : (l.take 3 ++ [v]).length = 4 := by
    simp only [List.length_append, List.length_take, List.length_cons, List.length_nil]
    omega
  have hsplit : l.take 3 ++ v :: l.drop (3 + 1) = (l.take 3 ++ [v]) ++ l.drop 4 := by simp
  rw [hsplit, List.drop_append_eq_append_drop, hX]
  rw [List.drop_eq_nil_of_le (by rw [hX]; omega), List.nil_append, List.drop_drop]
  have h4 : 4 + (k - 4) = k := by omega
  rw [h4]

lemma obj_string_no_fixed_point (o : Int) (h1 : 0 ≤ o) (h2 : o ≤ 34) :
    o ≠ Int.ofNat (obj_string (10033 - o)).length := by
  interval_cases o <;> decide

lemma find_obj_string_10033_none :
    ∀ (fuel : Nat) (offset : Int), offset ≤ 35 → find_obj_string 10033 offset fuel = none := by
  intro fuel
  induction fuel with
  | zero => intro offset _; rfl
  | succ n ih =>
    intro offset hoff
    simp only [find_obj_string]
    by_cases hneg : offset - 1 < 0
    · rw [if_neg]
      · exact ih _ (by omega)
      · intro heq
        have h0 : (0 : Int) ≤ Int.ofNat (obj_string (10033 - (offset - 1))).length :=
          Int.ofNat_nonneg _
        rw [heq] at hneg
        exact absurd hneg (not_lt.mpr h0)
    · rw [if_neg (obj_string_no_fixed_point (offset - 1) (by omega) (by omega))]
      exact ih _ (by omega)

/-- C5: the claim says the fixed-point search for the document-object header
string always terminates within 30 iterations and signals non-convergence as
a fatal error.  The source loop (beheader.py lines 150-156) is an unbounded
`while True` with no error path, and for `mp4_size = 10069` with
`atom_free_addr = 36` and no extra bytes (reachable, e.g. a 9773-byte image
with an empty media remainder in a document-attached run) the decrementing
offset skips over the fixed point when the rendered length crosses a power
of ten, so the loop never exits: no number of iterations suffices. -/
theorem c5_search_never_terminates (fuel : Nat) :
    search_obj_string 10069 36 0 fuel = none := by
  show find_obj_string ((10069 : Int) - (36 : Int) - (0 : Int))
    (30 + (toString (10069 : Nat)).length) fuel = none
  have h1 : ((10069 : Int) - (36 : Int) - (0 : Int)) = 10033 := by norm_num
  rw [h1]
  exact find_obj_string_10033_none fuel _ (by decide)

/-- C2: the skip atom built by `build_skip_atom` has a 4-byte big-endian
declared size equal to `len(payload) + 8`, then the literal tag `"skip"`,
then the payload, which is the hypertext bytes followed by the image bytes;
it is a pure function of its inputs (it is a Lean function of exactly the
image bytes and the hypertext bytes). -/
theorem c2_skip_atom_spec (png html b : List Nat)
    (h : build_skip_atom png html = some b) :
    fromBytesBE (pySlice b 0 4) = (html ++ png).length + 8 ∧
    pySlice b 4 8 = strBytes "skip" ∧
    b.drop 8 = html ++ png := by
  unfold build_skip_atom at h
  simp only [Option.map_eq_some'] at h
  obtain ⟨hd4, hbe, hb⟩ := h
  subst hb
  · have h4 : hd4.length = 4 := length_number_to_4b_be hbe
    have htag : (strBytes "skip").length = 4 := rfl
    refine ⟨?_, ?_, ?_⟩
    · have htake : pySlice (hd4 ++ strBytes "skip" ++ (html ++ png)) 0 4 = hd4 := by
        unfold pySlice
        rw [List.drop_zero, List.append_assoc hd4]
        exact List.take_left' h4
      rw [htake]
      exact fromBytesBE_number_to_4b_be hbe
    · unfold pySlice
      rw [List.append_assoc hd4, List.drop_left' h4]
      exact List.take_left' htag
    · have h8 : (hd4 ++ strBytes "skip").length = 8 := by
        rw [List.length_append, h4, htag]
      exact List.drop_left' h8

theorem c2_skip_atom_spec_witness :
    build_skip_atom [1, 2] [3] = some [0, 0, 0, 11, 115, 107, 105, 112, 3, 1, 2] ∧
    (fromBytesBE (pySlice [0, 0, 0, 11, 115, 107, 105, 112, 3, 1, 2] 0 4) =
        (([3] : List Nat) ++ [1, 2]).length + 8 ∧
      pySlice [0, 0, 0, 11, 115, 107, 105, 112, 3, 1, 2] 4 8 = strBytes "skip" ∧
      ([0, 0, 0, 11, 115, 107, 105, 112, 3, 1, 2] : List Nat).drop 8 = [3] ++ [1, 2]) :=
  ⟨by decide, c2_skip_atom_spec [1, 2] [3] _ (by decide)⟩

/-- C3 counterexample: the claim says reassembly fails with
`TruncatedContainer` whenever the declared leading-box length exceeds the
container length.  The source (beheader.py lines 128-130, 162) slices with
`orig_bytes[orig_ftyp_size:]`, which never fails: on a container of 8 bytes
declaring a 100-byte leading box the run proceeds and the remainder is
simply empty. -/
theorem c3_counterexample :
    fromBytesBE (pySlice [0, 0, 0, 100, 1, 2, 3, 4] 0 4) = 100 ∧
    ([0, 0, 0, 100, 1, 2, 3, 4] : List Nat).length = 8 ∧
    strip_leading_box [0, 0, 0, 100, 1, 2, 3, 4] = [] ∧
    reassemble [7] [9] [0, 0, 0, 100, 1, 2, 3, 4] = [7, 9] := by decide

/-- C3 (amended): the reassembler reads the first 4 bytes as a big-endian
leading-box length and discards that many leading bytes, clipped at the end
of the container; when the declared length is at least the container length
the remainder is empty and the output is just header ++ wrapper box — no
failure is raised. -/
theorem c3_oversized_box_empty_remainder (hdr skipAtom origBytes : List Nat)
    (h : origBytes.length ≤ fromBytesBE (pySlice origBytes 0 4)) :
    strip_leading_box origBytes = [] ∧
    reassemble hdr skipAtom origBytes = hdr ++ skipAtom := by
  have h1 : strip_leading_box origBytes = [] := by
    unfold strip_leading_box
    exact List.drop_eq_nil_of_le h
  refine ⟨h1, ?_⟩
  unfold reassemble
  rw [h1, List.append_nil]

theorem c3_oversized_box_empty_remainder_witness :
    ([0, 0, 0, 50, 1, 2] : List Nat).length ≤ fromBytesBE (pySlice [0, 0, 0, 50, 1, 2] 0 4) ∧
    (strip_leading_box [0, 0, 0, 50, 1, 2] = [] ∧
      reassemble [1] [2] [0, 0, 0, 50, 1, 2] = [1] ++ [2]) :=
  ⟨by decide, c3_oversized_box_empty_remainder [1] [2] _ (by decide)⟩

/-- C9: the post-write fix (beheader.py lines 164-166) seeks to offset 3 and
writes one zero byte: the byte at index 3 becomes zero, every other index is
unchanged, and the length is unchanged. -/
theorem c9_byte3_fix_frame (l : List Nat) (i : Nat) (h3 : 3 < l.length) (hi : i ≠ 3) :
    (fix_byte3 l).length = l.length ∧
    (fix_byte3 l).get? 3 = some 0 ∧
    (fix_byte3 l).get? i = l.get? i := by
  refine ⟨List.length_set l 3 0, ?_, ?_⟩
  · simp [fix_byte3, List.get?_eq_getElem?, List.getElem?_set, h3]
  · simp [fix_byte3, List.get?_eq_getElem?, List.getElem?_set, Ne.symm hi]

theorem c9_byte3_fix_frame_witness :
    3 < ([9, 8, 7, 6, 5] : List Nat).length ∧ (0 : Nat) ≠ 3 ∧
    ((fix_byte3 [9, 8, 7, 6, 5]).length = ([9, 8, 7, 6, 5] : List Nat).length ∧
      (fix_byte3 [9, 8, 7, 6, 5]).get? 3 = some 0 ∧
      (fix_byte3 [9, 8, 7, 6, 5]).get? 0 = ([9, 8, 7, 6, 5] : List Nat).get? 0) :=
  ⟨by decide, by decide, c9_byte3_fix_frame [9, 8, 7, 6, 5] 0 (by decide) (by decide)⟩

/-- C6 counterexample: the claim says an entry whose incremented offset
exceeds 10 decimal digits makes the patch fail with `OffsetOverflow`.  The
source (beheader.py lines 183-187) instead writes `pad_left(new, 10)[:10]`,
silently truncating to the ten most significant characters and succeeding:
entry `9999999999` shifted by `324` stores `1000000032`, which is not
`9999999999 + 324`. -/
theorem c6_counterexample :
    patchEntries 324 (entry_bytes 9999999999 (strBytes " 00000 n")) 0 1 =
      Sum.inr (strBytes "1000000032 00000 n" ++ [10]) ∧
    parseDigits (strBytes "1000000032") = some 1000000032 ∧
    1000000032 ≠ 9999999999 + 324 := by decide

lemma length_set_288 (l : List Nat) (i v : Nat) (h : l.length = 288) :
    (l.set i v).length = 288 := by
  rw [List.length_set]
  exact h

lemma length_setSlice_288 (l repl : List Nat) (a b : Nat) (hab : a ≤ b) (hb : b ≤ 288)
    (hr : repl.length = b - a) (h : l.length = 288) :
    (pySetSlice l a b repl).length = 288 := by
  rw [pySetSlice_length_of_fit l repl a b hab (by omega) hr]
  exact h

lemma ftyp_buffer_base_length (pngSizeBytes : List Nat) (h4 : pngSizeBytes.length = 4) :
    (ftyp_buffer_base pngSizeBytes).length = 288 := by
  have hftyp : (strBytes "ftyp").length = 4 := rfl
  have htmpl : canonical_ftyp_template.length = 32 := rfl
  simp only [ftyp_buffer_base]
  apply length_setSlice_288 _ _ _ _ (by omega) (by omega) (by omega)
  apply length_set_288
  apply length_setSlice_288 _ _ _ _ (by omega) (by omega) (by omega)
  apply length_setSlice_288 _ _ _ _ (by omega) (by omega) (by omega)
  apply length_set_288
  apply length_set_288
  rw [List.length_replicate]

lemma build_ftyp_common_parts (pngSize htmlLen : Nat) (skipAtom extra hdr : List Nat)
    (hsome : build_ftyp_common pngSize htmlLen skipAtom extra = some hdr) :
    ∃ pngSizeBytes offsetBytes,
      number_to_4b_le pngSize = some pngSizeBytes ∧
      number_to_4b_le ((ftyp_buffer_base pngSizeBytes).length +
        (skipAtom.take 8).length + htmlLen) = some offsetBytes ∧
      hdr = pySetSlice
        (pySetSlice
          (pySetSlice
            (pySetSlice (pySetSlice (ftyp_buffer_base pngSizeBytes) 18 22 offsetBytes)
              4 8 [1, 0, 0, 0])
            240 256 (strBytes "isomiso2avc1mp41"))
          22 (22 + extra.length) extra)
        (22 + extra.length) (22 + extra.length + 4) (strBytes "<!--") := by
  unfold build_ftyp_common at hsome
  split at hsome
  · exact absurd hsome (by simp)
  · rename_i pngSizeBytes h1
    split at hsome
    · exact absurd hsome (by simp)
    · rename_i offsetBytes h2
      simp only [Option.some.injEq] at hsome
      exact ⟨pngSizeBytes, offsetBytes, h1, h2, hsome.symm⟩

lemma build_ftyp_common_length (pngSize htmlLen : Nat) (skipAtom extra hdr : List Nat)
    (hfit : 26 + extra.length ≤ 288)
    (hsome : build_ftyp_common pngSize htmlLen skipAtom extra = some hdr) :
    hdr.length = 288 := by
  obtain ⟨pngSizeBytes, offsetBytes, h1, h2, rfl⟩ := build_ftyp_common_parts _ _ _ _ _ hsome
  have hb4 : pngSizeBytes.length = 4 := length_number_to_4b_le h1
  have ho4 : offsetBytes.length = 4 := length_number_to_4b_le h2
  have hcm : (strBytes "<!--").length = 4 := rfl
  have hbrand : (strBytes "isomiso2avc1mp41").length = 16 := rfl
  have hbox : ([1, 0, 0, 0] : List Nat).length = 4 := rfl
  apply length_setSlice_288 _ _ _ _ (by omega) (by omega) (by omega)
  apply length_setSlice_288 _ _ _ _ (by omega) (by omega) (by omega)
  apply length_setSlice_288 _ _ _ _ (by omega) (by omega) (by omega)
  apply length_setSlice_288 _ _ _ _ (by omega) (by omega) (by omega)
  apply length_setSlice_288 _ _ _ _ (by omega) (by omega) (by omega)
  exact ftyp_buffer_base_length _ hb4

lemma build_ftyp_common_field (pngSize htmlLen : Nat) (skipAtom extra hdr : List Nat)
    (hfit : 26 + extra.length ≤ 288) (hskip : 8 ≤ skipAtom.length)
    (hsome : build_ftyp_common pngSize htmlLen skipAtom extra = some hdr) :
    fromBytesLE (pySlice hdr 18 22) = 288 + 8 + htmlLen ∧ 288 + 8 + htmlLen < 4294967296 := by
  obtain ⟨pngSizeBytes, offsetBytes, h1, h2, rfl⟩ := build_ftyp_common_parts _ _ _ _ _ hsome
  have hb4 : pngSizeBytes.length = 4 := length_number_to_4b_le h1
  have ho4 : offsetBytes.length = 4 := length_number_to_4b_le h2
  have htk : (skipAtom.take 8).length = 8 := by
    rw [List.length_take]
    omega
  have hbase : (ftyp_buffer_base pngSizeBytes).length = 288 :=
    ftyp_buffer_base_length _ hb4
  rw [hbase, htk] at h2
  have l7 : (pySetSlice (ftyp_buffer_base pngSizeBytes) 18 22 offsetBytes).length = 288 :=
    length_setSlice_288 _ _ _ _ (by omega) (by omega) (by omega) hbase
  have l8 : (pySetSlice (pySetSlice (ftyp_buffer_base pngSizeBytes) 18 22 offsetBytes)
      4 8 [1, 0, 0, 0]).length = 288 :=
    length_setSlice_288 _ _ _ _ (by omega) (by omega) (by decide) l7
  have l9 : (pySetSlice (pySetSlice (pySetSlice (ftyp_buffer_base pngSizeBytes) 18 22
      offsetBytes) 4 8 [1, 0, 0, 0]) 240 256 (strBytes "isomiso2avc1mp41")).length = 288 :=
    length_setSlice_288 _ _ _ _ (by omega) (by omega) (by decide) l8
  have l10 : (pySetSlice (pySetSlice (pySetSlice (pySetSlice (ftyp_buffer_base pngSizeBytes)
      18 22 offsetBytes) 4 8 [1, 0, 0, 0]) 240 256 (strBytes "isomiso2avc1mp41"))
      22 (22 + extra.length) extra).length = 288 :=
    length_setSlice_288 _ _ _ _ (by omega) (by omega) (by omega) l9
  rw [pySlice_setSlice_after _ _ _ _ _ _ (by omega) (by omega) (by omega)]
  rw [pySlice_setSlice_after _ _ _ _ _ _ (by omega) (by omega) (by omega)]
  rw [pySlice_setSlice_after _ _ _ _ _ _ (by omega) (by omega) (by omega)]
  rw [pySlice_setSlice_before _ _ _ _ _ _ (by omega) (by omega) (by omega) (by decide)]
  rw [pySlice_setSlice_write _ _ _ _ (by omega) (by omega) (by omega)]
  exact ⟨fromBytesLE_number_to_4b_le h2, (number_to_4b_le_eq h2).1⟩

lemma set_eq_pySetSlice (l : List Nat) (i v : Nat) (h : i < l.length) :
    l.set i v = pySetSlice l i (i + 1) [v] := by
  rw [pySetSlice_eq_of_le _ _ _ _ (by omega) (by omega), List.set_eq_take_cons_drop v h]
  simp

lemma pySlice_1822_set (l : List Nat) (i v : Nat) (hi : 22 ≤ i) (h : i < l.length) :
    pySlice (l.set i v) 18 22 = pySlice l 18 22 := by
  rw [set_eq_pySetSlice l i v h]
  exact pySlice_setSlice_after _ _ _ _ _ _ hi (by omega) (by omega)

/-- Under the document-path fit conditions, the splices of lines 143-160
keep the header at 288 bytes and do not touch the image-offset field. -/
lemma splice_pdf_header_spec (b extra pdfBytes : List Nat) (skipLen restLen fuel : Nat)
    (hdr : List Nat) (hb : b.length = 288)
    (h9 : 9 ≤ pdfBytes.length) (h36 : 36 + extra.length ≤ 288)
    (hobj : ∀ s, search_obj_string (288 + skipLen + restLen) (36 + extra.length)
      extra.length fuel = some s → 36 + 2 * extra.length + (strBytes s).length ≤ 288)
    (hsome : splice_pdf_header b extra pdfBytes skipLen restLen fuel = some hdr) :
    hdr.length = 288 ∧ pySlice hdr 18 22 = pySlice b 18 22 := by
  simp only [splice_pdf_header] at hsome
  rw [hb, show 26 + extra.length + 10 = 36 + extra.length from by omega] at hsome
  rw [if_pos (show 26 + extra.length < 288 from by omega)] at hsome
  split at hsome
  · exact absurd hsome (by simp)
  · rename_i s hs
    simp only [Option.some.injEq] at hsome
    subst hsome
    have hbound := hobj s hs
    have hb1len : (b.set (26 + extra.length) 10).length = 288 := by
      rw [List.length_set]
      exact hb
    have htk9 : (pdfBytes.take 9).length = 9 := by
      rw [List.length_take]
      omega
    have hb2len : (pySetSlice (b.set (26 + extra.length) 10) (26 + extra.length + 1)
        (36 + extra.length) (pdfBytes.take 9)).length = 288 :=
      length_setSlice_288 _ _ _ _ (by omega) (by omega) (by omega) hb1len
    constructor
    · exact length_setSlice_288 _ _ _ _ (by omega) (by omega) (by omega) hb2len
    · rw [pySlice_setSlice_after _ _ _ _ _ _ (by omega) (by omega) (by omega)]
      rw [pySlice_setSlice_after _ _ _ _ _ _ (by omega) (by omega) (by omega)]
      exact pySlice_1822_set b (26 + extra.length) 10 (by omega) (by omega)

lemma build_ftyp_buffer_length (pngSize htmlLen : Nat) (skipAtom extra : List Nat)
    (pdf : Option (List Nat)) (restLen fuel : Nat) (hdr : List Nat)
    (hfit : header_splices_fit extra pdf skipAtom.length restLen fuel)
    (hsome : build_ftyp_buffer pngSize htmlLen skipAtom extra pdf restLen fuel = some hdr) :
    hdr.length = 288 := by
  simp only [build_ftyp_buffer, Option.bind_eq_some] at hsome
  obtain ⟨b, hcommon, hrest⟩ := hsome
  cases pdf with
  | none =>
    simp only [Option.some.injEq] at hrest
    subst hrest
    exact build_ftyp_common_length _ _ _ _ _ hfit hcommon
  | some pdfBytes =>
    obtain ⟨h9, h36, h3⟩ := hfit
    have hbl : b.length = 288 :=
      build_ftyp_common_length _ _ _ _ _ (by omega) hcommon
    have hobj : ∀ s, search_obj_string (288 + skipAtom.length + restLen)
        (36 + extra.length) extra.length fuel = some s →
        36 + 2 * extra.length + (strBytes s).length ≤ 288 := by
      intro s hs
      rw [hs] at h3
      exact h3
    exact (splice_pdf_header_spec b extra pdfBytes skipAtom.length restLen fuel
      hdr hbl h9 h36 hobj hrest).1

lemma build_ftyp_buffer_field (pngSize htmlLen : Nat) (skipAtom extra : List Nat)
    (pdf : Option (List Nat)) (restLen fuel : Nat) (hdr : List Nat)
    (hfit : header_splices_fit extra pdf skipAtom.length restLen fuel)
    (hskip : 8 ≤ skipAtom.length)
    (hsome : build_ftyp_buffer pngSize htmlLen skipAtom extra pdf restLen fuel = some hdr) :
    fromBytesLE (pySlice hdr 18 22) = 288 + 8 + htmlLen ∧ 288 + 8 + htmlLen < 4294967296 := by
  simp only [build_ftyp_buffer, Option.bind_eq_some] at hsome
  obtain ⟨b, hcommon, hrest⟩ := hsome
  cases pdf with
  | none =>
    simp only [Option.some.injEq] at hrest
    subst hrest
    exact build_ftyp_common_field _ _ _ _ _ hfit hskip hcommon
  | some pdfBytes =>
    obtain ⟨h9, h36, h3⟩ := hfit
    have hbl : b.length = 288 :=
      build_ftyp_common_length _ _ _ _ _ (by omega) hcommon
    have hobj : ∀ s, search_obj_string (288 + skipAtom.length + restLen)
        (36 + extra.length) extra.length fuel = some s →
        36 + 2 * extra.length + (strBytes s).length ≤ 288 := by
      intro s hs
      rw [hs] at h3
      exact h3
    have hspec := splice_pdf_header_spec b extra pdfBytes skipAtom.length restLen fuel
      hdr hbl h9 h36 hobj hrest
    rw [hspec.2]
    exact build_ftyp_common_field _ _ _ _ _ (by omega) hskip hcommon

/-- C7 (amended): the header buffer starts as 288 zero bytes and there is no
`LayoutOverflow` check: spliced content that overruns the region — the extra
bytes, the comment marker, the document prefix or the document-object header
string — silently grows the buffer past 288 bytes (Python slice assignment
extends it), and the document path's single-byte cursor write raises an
untyped `IndexError` when the free cursor has reached the end
(`26 + len(extra) ≥ 288`); whenever the spliced content fits
(`header_splices_fit`: extra and comment marker inside the budget, and for a
document run the 9-byte prefix present, the prefix splice inside the budget,
the object-header search exiting, and the object-header string fitting at
`36 + 2*len(extra)`) the built header region is exactly 288 bytes. -/
theorem c7_header_288_when_content_fits (pngSize htmlLen : Nat)
    (skipAtom extra hdr : List Nat) (pdf : Option (List Nat)) (restLen fuel : Nat)
    (hfit : header_splices_fit extra pdf skipAtom.length restLen fuel)
    (hsome : build_ftyp_buffer pngSize htmlLen skipAtom extra pdf restLen fuel = some hdr) :
    hdr.length = 288 :=
  build_ftyp_buffer_length pngSize htmlLen skipAtom extra pdf restLen fuel hdr hfit hsome

set_option maxRecDepth 8192 in
theorem c7_header_288_when_content_fits_witness :
    header_splices_fit [7] (some [37, 80, 68, 70, 45, 49, 46, 52, 120])
      ([0, 0, 0, 13, 115, 107, 105, 112, 9] : List Nat).length 0 100 ∧
    ((build_ftyp_buffer 5 0 [0, 0, 0, 13, 115, 107, 105, 112, 9] [7]
      (some [37, 80, 68, 70, 45, 49, 46, 52, 120]) 0 100).getD []).length = 288 :=
  ⟨by decide,
    c7_header_288_when_content_fits 5 0 [0, 0, 0, 13, 115, 107, 105, 112, 9] [7]
      _ (some [37, 80, 68, 70, 45, 49, 46, 52, 120]) 0 100 (by decide) (by rfl)⟩

lemma pySlice_append_left (A Y : List Nat) (p q : Nat) (hq : q ≤ A.length)
    (hpq : p ≤ q) : pySlice (A ++ Y) p q = pySlice A p q := by
  unfold pySlice
  rw [List.drop_append_eq_append_drop, List.take_append_eq_append_take, List.length_drop]
  rw [show q - p - (A.length - p) = 0 from by omega, List.take_zero, List.append_nil]

lemma pySlice_middle (A B C : List Nat) :
    pySlice (A ++ B ++ C) A.length (A.length + B.length) = B := by
  rw [List.append_assoc]
  unfold pySlice
  rw [List.drop_left, show A.length + B.length - A.length = B.length from by omega]
  exact List.take_left B C

lemma drop_append_set3 (X tail : List Nat) (p : Nat) (hp : 4 ≤ p) (h3 : 3 < X.length) :
    ((X.set 3 0) ++ tail).drop p = (X ++ tail).drop p := by
  rw [List.drop_append_eq_append_drop, List.drop_append_eq_append_drop,
    drop_set3 X 0 p hp h3, List.length_set]

/-- Layout of the full non-document output: the little-endian field at
bytes 18-21 decodes to `288 + 8 + len(html_bytes)`, the hypertext bytes sit
at 296, and the image bytes sit at `296 + len(html_bytes)`, for any bytes
appended afterwards — provided the spliced content fits the 288-byte
header budget. -/
lemma run_beheader_slices (png extra origBytes out tail : List Nat)
    (html pdf : Option (List Nat)) (fuel : Nat)
    (hfit : header_splices_fit extra pdf (8 + (html_bytes_of html).length + png.length)
      (strip_leading_box origBytes).length fuel)
    (hrun : run_beheader png html extra origBytes pdf fuel = some out) :
    fromBytesLE (pySlice out 18 22) = 288 + 8 + (html_bytes_of html).length ∧
    pySlice (out ++ tail) (288 + 8) (288 + 8 + (html_bytes_of html).length) =
      html_bytes_of html ∧
    pySlice (out ++ tail) (288 + 8 + (html_bytes_of html).length)
      (288 + 8 + (html_bytes_of html).length + png.length) = png := by
  simp only [run_beheader, Option.bind_eq_some, Option.map_eq_some'] at hrun
  obtain ⟨sa, hsa, hdr, hhdr, hout⟩ := hrun
  unfold build_skip_atom at hsa
  simp only [Option.map_eq_some'] at hsa
  obtain ⟨hd4, hbe, hsaeq⟩ := hsa
  subst hsaeq
  subst hout
  have h4 : hd4.length = 4 := length_number_to_4b_be hbe
  have htag : (strBytes "skip").length = 4 := rfl
  have hsl : (hd4 ++ strBytes "skip" ++ (html_bytes_of html ++ png)).length =
      8 + (html_bytes_of html).length + png.length := by
    simp only [List.length_append, h4, htag]
    omega
  rw [← hsl] at hfit
  have hlenhdr : hdr.length = 288 :=
    build_ftyp_buffer_length _ _ _ _ _ _ _ _ hfit hhdr
  have hskip : 8 ≤ (hd4 ++ strBytes "skip" ++ (html_bytes_of html ++ png)).length := by
    simp only [List.length_append, h4, htag]
    omega
  have hfield := build_ftyp_buffer_field _ _ _ _ _ _ _ _ hfit hskip hhdr
  have hXlen : (reassemble hdr (hd4 ++ strBytes "skip" ++ (html_bytes_of html ++ png))
      origBytes).length = 288 + 8 + (html_bytes_of html).length + png.length +
      (strip_leading_box origBytes).length := by
    unfold reassemble
    simp only [List.length_append, hlenhdr, h4, htag]
    omega
  refine ⟨?_, ?_, ?_⟩
  · have e1 : pySlice (fix_byte3 (reassemble hdr
        (hd4 ++ strBytes "skip" ++ (html_bytes_of html ++ png)) origBytes)) 18 22 =
        pySlice (reassemble hdr
          (hd4 ++ strBytes "skip" ++ (html_bytes_of html ++ png)) origBytes) 18 22 := by
      unfold pySlice fix_byte3
      rw [drop_set3 _ _ _ (by omega) (by omega)]
    rw [e1]
    have e2 : pySlice (reassemble hdr
        (hd4 ++ strBytes "skip" ++ (html_bytes_of html ++ png)) origBytes) 18 22 =
        pySlice hdr 18 22 := by
      unfold reassemble
      rw [List.append_assoc]
      exact pySlice_append_left hdr _ 18 22 (by omega) (by omega)
    rw [e2]
    exact hfield.1
  · have e3 : pySlice (fix_byte3 (reassemble hdr
        (hd4 ++ strBytes "skip" ++ (html_bytes_of html ++ png)) origBytes) ++ tail)
        (288 + 8) (288 + 8 + (html_bytes_of html).length) =
        pySlice (reassemble hdr
          (hd4 ++ strBytes "skip" ++ (html_bytes_of html ++ png)) origBytes ++ tail)
          (288 + 8) (288 + 8 + (html_bytes_of html).length) := by
      unfold pySlice fix_byte3
      rw [drop_append_set3 _ _ _ (by omega) (by omega)]
    rw [e3]
    have hre : reassemble hdr (hd4 ++ strBytes "skip" ++ (html_bytes_of html ++ png))
        origBytes ++ tail =
        (hdr ++ (hd4 ++ strBytes "skip")) ++ html_bytes_of html ++
          (png ++ (strip_leading_box origBytes ++ tail)) := by
      unfold reassemble
      simp [List.append_assoc]
    have hA : (hdr ++ (hd4 ++ strBytes "skip")).length = 288 + 8 := by
      simp only [List.length_append, hlenhdr, h4, htag]
    rw [hre, ← hA]
    exact pySlice_middle _ _ _
  · have e3 : pySlice (fix_byte3 (reassemble hdr
        (hd4 ++ strBytes "skip" ++ (html_bytes_of html ++ png)) origBytes) ++ tail)
        (288 + 8 + (html_bytes_of html).length)
        (288 + 8 + (html_bytes_of html).length + png.length) =
        pySlice (reassemble hdr
          (hd4 ++ strBytes "skip" ++ (html_bytes_of html ++ png)) origBytes ++ tail)
          (288 + 8 + (html_bytes_of html).length)
          (288 + 8 + (html_bytes_of html).length + png.length) := by
      unfold pySlice fix_byte3
      rw [drop_append_set3 _ _ _ (by omega) (by omega)]
    rw [e3]
    have hre : reassemble hdr (hd4 ++ strBytes "skip" ++ (html_bytes_of html ++ png))
        origBytes ++ tail =
        (hdr ++ (hd4 ++ strBytes "skip") ++ html_bytes_of html) ++ png ++
          (strip_leading_box origBytes ++ tail) := by
      unfold reassemble
      simp [List.append_assoc]
    have hA : (hdr ++ (hd4 ++ strBytes "skip") ++ html_bytes_of html).length =
        288 + 8 + (html_bytes_of html).length := by
      simp only [List.length_append, hlenhdr, h4, htag]
    rw [hre, ← hA]
    exact pySlice_middle _ _ _

lemma slice_head_entry (A F R : List Nat) (h10 : F.length = 10) :
    pySlice (A ++ F ++ R) A.length (A.length + 10) = F := by
  unfold pySlice
  rw [show A.length + 10 - A.length = 10 from by omega, List.append_assoc, List.drop_left]
  exact List.take_left' h10

lemma pyFind_entry (A F mid R : List Nat) (h10 : F.length = 10)
    (hF : (10 : Nat) ∉ F) (hmid : (10 : Nat) ∉ mid) :
    pyFind (A ++ F ++ mid ++ [10] ++ R) [10] (A.length + 1) =
      Int.ofNat (A.length + 1 + (9 + mid.length)) := by
  have hd : (A ++ F ++ mid ++ [10] ++ R).drop (A.length + 1) =
      (F.drop 1 ++ mid) ++ 10 :: R := by
    have hsh : A ++ F ++ mid ++ [10] ++ R = A ++ (F ++ (mid ++ (10 :: R))) := by
      simp [List.append_assoc]
    rw [hsh, List.drop_append_eq_append_drop]
    rw [List.drop_eq_nil_of_le (by omega), List.nil_append]
    rw [show A.length + 1 - A.length = 1 from by omega]
    rw [List.drop_append_eq_append_drop, show 1 - F.length = 0 from by omega,
      List.drop_zero]
    simp [List.append_assoc]
  have hpre : (10 : Nat) ∉ F.drop 1 ++ mid := by
    intro hmem
    rcases List.mem_append.mp hmem with hc | hc
    · exact hF (List.mem_of_mem_drop hc)
    · exact hmid hc
  have := pyFind_newline (A ++ F ++ mid ++ [10] ++ R) (A.length + 1)
    (F.drop 1 ++ mid) R hd hpre
  rw [this]
  congr 1
  rw [List.length_append, List.length_drop, h10]

lemma entries_bytes_cons (e : Nat × List Nat) (es : List (Nat × List Nat)) :
    entries_bytes (e :: es) = entry_bytes e.1 e.2 ++ entries_bytes es := by
  simp [entries_bytes]

lemma patchEntries_structured (out : Nat) :
    ∀ (es : List (Nat × List Nat)) (A B : List Nat),
      (∀ e ∈ es, EntryOk out e) →
      patchEntries out (A ++ entries_bytes es ++ B) A.length es.length =
        Sum.inr (A ++ entries_bytes (es.map fun e => (e.1 + out, e.2)) ++ B) := by
  intro es
  induction es with
  | nil =>
    intro A B _
    simp [entries_bytes, patchEntries]
  | cons e rest ih =>
    intro A B hok
    obtain ⟨h10, hparse, h10n, hnl, hmid, -⟩ := hok e (List.mem_cons_self e rest)
    have hrest : ∀ x ∈ rest, EntryOk out x := fun x hx => hok x (List.mem_cons_of_mem e hx)
    have hshape : A ++ entries_bytes (e :: rest) ++ B =
        A ++ strBytes (pad_left e.1 10) ++ (e.2 ++ [10] ++ (entries_bytes rest ++ B)) := by
      rw [entries_bytes_cons]
      unfold entry_bytes
      simp [List.append_assoc]
    rw [List.length_cons, hshape]
    have hread : pySlice (A ++ strBytes (pad_left e.1 10) ++
        (e.2 ++ [10] ++ (entries_bytes rest ++ B))) A.length (A.length + 10) =
        strBytes (pad_left e.1 10) := slice_head_entry _ _ _ h10
    simp only [patchEntries, hread, hparse]
    have htake : (strBytes (pad_left (e.1 + out) 10)).take 10 =
        strBytes (pad_left (e.1 + out) 10) :=
      List.take_of_length_le (by omega)
    rw [htake]
    have harg : A.length + 10 = A.length + (strBytes (pad_left e.1 10)).length := by
      omega
    rw [harg, pySetSlice_append]
    have hshape2 : A ++ strBytes (pad_left (e.1 + out) 10) ++
        (e.2 ++ [10] ++ (entries_bytes rest ++ B)) =
        A ++ strBytes (pad_left (e.1 + out) 10) ++ e.2 ++ [10] ++
          (entries_bytes rest ++ B) := by
      simp [List.append_assoc]
    rw [hshape2]
    rw [pyFind_entry A _ e.2 (entries_bytes rest ++ B) h10n hnl hmid]
    have hcurr : (Int.ofNat (A.length + 1 + (9 + e.2.length)) + 1).toNat =
        (A ++ entry_bytes (e.1 + out) e.2).length := by
      have h1 : Int.ofNat (A.length + 1 + (9 + e.2.length)) + 1 =
          Int.ofNat (A.length + 1 + (9 + e.2.length) + 1) := rfl
      have h2 : (Int.ofNat (A.length + 1 + (9 + e.2.length) + 1)).toNat =
          A.length + 1 + (9 + e.2.length) + 1 := rfl
      rw [h1, h2]
      unfold entry_bytes
      simp only [List.length_append, List.length_cons, List.length_nil, h10n]
      omega
    rw [hcurr]
    have hshape3 : A ++ strBytes (pad_left (e.1 + out) 10) ++ e.2 ++ [10] ++
        (entries_bytes rest ++ B) =
        (A ++ entry_bytes (e.1 + out) e.2) ++ entries_bytes rest ++ B := by
      unfold entry_bytes
      simp [List.append_assoc]
    rw [hshape3, ih (A ++ entry_bytes (e.1 + out) e.2) B hrest]
    congr 1
    rw [List.map_cons, entries_bytes_cons]
    simp [List.append_assoc]

lemma strBytes_length (s : String) : (strBytes s).length = s.length := by
  unfold strBytes
  rw [List.length_map]
  rfl

lemma entry_bytes_length (off : Nat) (mid : List Nat)
    (h10 : (strBytes (pad_left off 10)).length = 10) :
    (entry_bytes off mid).length = 11 + mid.length := by
  unfold entry_bytes
  simp only [List.length_append, List.length_cons, List.length_nil, h10]
  omega

lemma entries_bytes_length_map (out : Nat) (es : List (Nat × List Nat))
    (hes : ∀ e ∈ es, EntryOk out e) :
    (entries_bytes (es.map fun e => (e.1 + out, e.2))).length =
      (entries_bytes es).length := by
  induction es with
  | nil => rfl
  | cons e rest ih =>
    obtain ⟨h10, -, h10n, -, -, -⟩ := hes e (List.mem_cons_self e rest)
    rw [List.map_cons, entries_bytes_cons, entries_bytes_cons]
    simp only [List.length_append]
    rw [entry_bytes_length _ _ h10, entry_bytes_length _ _ h10n,
      ih (fun x hx => hes x (List.mem_cons_of_mem e hx))]

lemma trailer_patch_form (X D R N : List Nat) (q n : Nat) (hn : N.length = n)
    (hX : X.length = q + 10) (hroom : q + 15 + n ≤ (X ++ (D ++ R)).length) :
    zeroFrom (pySetSlice (pySetSlice (X ++ (D ++ R)) (q + 10) (q + 10 + n) N)
        (q + 10 + n) (q + 15 + n) eof_marker) (q + n + 17) =
      X ++ N ++ eof_marker ++
        List.replicate ((X ++ (D ++ R)).length + 2 - (q + n + 17)) 0 ∧
    (zeroFrom (pySetSlice (pySetSlice (X ++ (D ++ R)) (q + 10) (q + 10 + n) N)
        (q + 10 + n) (q + 15 + n) eof_marker) (q + n + 17)).length =
      (X ++ (D ++ R)).length + 2 := by
  have heof : eof_marker.length = 7 := rfl
  have htot : (X ++ (D ++ R)).length = q + 10 + (D.length + R.length) := by
    simp only [List.length_append, hX]
  have hstep2 : pySetSlice (X ++ (D ++ R)) (q + 10) (q + 10 + n) N =
      (X ++ N) ++ (D ++ R).drop n := by
    rw [pySetSlice_eq_of_le _ _ _ _ (by omega) (by omega)]
    rw [List.take_left' hX]
    rw [List.drop_append_eq_append_drop, List.drop_eq_nil_of_le (by omega),
      List.nil_append, hX, show q + 10 + n - (q + 10) = n from by omega]
  rw [hstep2]
  have hlen2 : ((X ++ N) ++ (D ++ R).drop n).length = q + 10 + n + (D.length + R.length - n) := by
    simp only [List.length_append, List.length_drop, hX, hn]
  have hstep3 : pySetSlice ((X ++ N) ++ (D ++ R).drop n) (q + 10 + n) (q + 15 + n)
      eof_marker = ((X ++ N) ++ eof_marker) ++ ((D ++ R).drop n).drop 5 := by
    rw [pySetSlice_eq_of_le _ _ _ _ (by omega) (by omega)]
    rw [List.take_left' (by simp only [List.length_append, hX, hn])]
    rw [List.drop_append_eq_append_drop, List.drop_eq_nil_of_le
      (by simp only [List.length_append, hX, hn]; omega), List.nil_append,
      show q + 15 + n - ((X ++ N)).length = 5 from by
        simp only [List.length_append, hX, hn]; omega]
  rw [hstep3]
  have hlen3 : (((X ++ N) ++ eof_marker) ++ ((D ++ R).drop n).drop 5).length =
      (X ++ (D ++ R)).length + 2 := by
    simp only [List.length_append, List.length_drop, hX, hn, heof]
    omega
  have hfront : ((X ++ N) ++ eof_marker).length = q + n + 17 := by
    simp only [List.length_append, hX, hn, heof]
    omega
  unfold zeroFrom
  rw [List.take_left' hfront, hlen3]
  constructor
  · rfl
  · simp only [List.length_append, List.length_replicate, hfront]
    omega

set_option maxHeartbeats 1000000 in
/-- A document-tail patch whose anchors are found, reduced to its final
trailer stage: the entry loop shifts every offset by `out_size` and the
remaining writes are the trailer-pointer splice, the end-of-file-marker
splice and the zero loop, starting from the re-associated patched buffer. -/
lemma patchPdfTail_main (pdfBytes : List Nat) (fileSize : Nat)
    (px po ps pe sxv : Nat) (es : List (Nat × List Nat)) (H T1 D T2 : List Nat)
    (hbuf : object_terminator ++ pdfBytes = H ++ entries_bytes es ++ (T1 ++ D ++ T2))
    (hx : pyFind (object_terminator ++ pdfBytes) xref_key 0 = Int.ofNat px)
    (ho : pyFind (object_terminator ++ pdfBytes) zeros_key (px + 1) = Int.ofNat po)
    (hs : pyFind (object_terminator ++ pdfBytes) startxref_key (px + 1) = Int.ofNat ps)
    (he : pyFind (object_terminator ++ pdfBytes) [10] (ps + 1 + 11) = Int.ofNat pe)
    (hpe : 0 < pe)
    (hH : H.length = po + 1)
    (hcount : parse_xref_count (pySlice (object_terminator ++ pdfBytes) (px + 1) (po + 1)) =
      some es.length)
    (hes : ∀ e ∈ es, EntryOk (fileSize + object_terminator.length) e)
    (hT1 : po + 1 + (entries_bytes es).length + T1.length = ps + 1 + 10)
    (hD : ps + 1 + 10 + D.length = pe)
    (hsxv : parsePyNat D = some sxv) :
    patchPdfTail pdfBytes fileSize =
      zeroFrom (pySetSlice (pySetSlice ((H ++ entries_bytes (es.map fun e =>
          (e.1 + (fileSize + object_terminator.length), e.2)) ++ T1) ++ (D ++ T2))
          (ps + 1 + 10)
          (ps + 1 + 10 + (toString (sxv + (fileSize + object_terminator.length))).length)
          (strBytes (toString (sxv + (fileSize + object_terminator.length)))))
        (ps + 1 + 10 + (toString (sxv + (fileSize + object_terminator.length))).length)
        (ps + 1 + 15 + (toString (sxv + (fileSize + object_terminator.length))).length)
        eof_marker)
        (ps + 1 + (toString (sxv + (fileSize + object_terminator.length))).length + 17) := by
  have e1 : (Int.ofNat px + 1).toNat = px + 1 := rfl
  have e2 : (Int.ofNat po + 1).toNat = po + 1 := rfl
  have e3 : (Int.ofNat ps + 1).toNat = ps + 1 := rfl
  have e4 : (Int.ofNat ps + 1 + 11).toNat = ps + 1 + 11 := rfl
  have e5 : (Int.ofNat pe).toNat = pe := rfl
  have hcond : ¬(Int.ofNat px + 1 ≤ 0 ∨ Int.ofNat po + 1 ≤ 0 ∨ Int.ofNat ps + 1 ≤ 0 ∨
      Int.ofNat pe ≤ 0) := by
    intro hh
    rcases hh with hh | hh | hh | hh <;> omega
  have hpatch : patchEntries (fileSize + object_terminator.length)
      (object_terminator ++ pdfBytes) (po + 1) es.length =
      Sum.inr (H ++ entries_bytes (es.map fun e =>
        (e.1 + (fileSize + object_terminator.length), e.2)) ++ (T1 ++ D ++ T2)) := by
    rw [hbuf, ← hH]
    exact patchEntries_structured _ es H (T1 ++ D ++ T2) hes
  have hEB : (entries_bytes (es.map fun e =>
      (e.1 + (fileSize + object_terminator.length), e.2))).length =
      (entries_bytes es).length := entries_bytes_length_map _ es hes
  have hbuflen : (object_terminator ++ pdfBytes).length =
      po + 1 + (entries_bytes es).length + (T1.length + D.length + T2.length) := by
    rw [hbuf]
    simp only [List.length_append, hH]
  have hXl : (H ++ entries_bytes (es.map fun e =>
      (e.1 + (fileSize + object_terminator.length), e.2)) ++ T1).length = ps + 1 + 10 := by
    simp only [List.length_append, hH, hEB]
    omega
  have hslice : pySlice (H ++ entries_bytes (es.map fun e =>
      (e.1 + (fileSize + object_terminator.length), e.2)) ++ (T1 ++ D ++ T2))
      (ps + 1 + 10) pe = D := by
    have hre : H ++ entries_bytes (es.map fun e =>
        (e.1 + (fileSize + object_terminator.length), e.2)) ++ (T1 ++ D ++ T2) =
        (H ++ entries_bytes (es.map fun e =>
          (e.1 + (fileSize + object_terminator.length), e.2)) ++ T1) ++ D ++ T2 := by
      simp [List.append_assoc]
    rw [hre, ← hXl, show pe = (H ++ entries_bytes (es.map fun e =>
        (e.1 + (fileSize + object_terminator.length), e.2)) ++ T1).length + D.length from by
      rw [hXl]; omega]
    exact pySlice_middle _ _ _
  have hstage1 : patchPdfTail pdfBytes fileSize =
      patch_xref (object_terminator ++ pdfBytes) (po + 1) (ps + 1) pe
        (fileSize + object_terminator.length) es.length := by
    simp only [patchPdfTail]
    rw [hx, e1, ho, e2, hs, e3, e4, he, e5, if_neg hcond]
    simp only [hcount]
  have hstage2 : patch_xref (object_terminator ++ pdfBytes) (po + 1) (ps + 1) pe
      (fileSize + object_terminator.length) es.length =
      patch_trailer (H ++ entries_bytes (es.map fun e =>
        (e.1 + (fileSize + object_terminator.length), e.2)) ++ (T1 ++ D ++ T2))
        (ps + 1) pe (fileSize + object_terminator.length) := by
    simp only [patch_xref, hpatch]
  have hstage3 : patch_trailer (H ++ entries_bytes (es.map fun e =>
      (e.1 + (fileSize + object_terminator.length), e.2)) ++ (T1 ++ D ++ T2))
      (ps + 1) pe (fileSize + object_terminator.length) =
      zeroFrom (pySetSlice (pySetSlice (H ++ entries_bytes (es.map fun e =>
          (e.1 + (fileSize + object_terminator.length), e.2)) ++ (T1 ++ D ++ T2))
          (ps + 1 + 10)
          (ps + 1 + 10 + (toString (sxv + (fileSize + object_terminator.length))).length)
          (strBytes (toString (sxv + (fileSize + object_terminator.length)))))
        (ps + 1 + 10 + (toString (sxv + (fileSize + object_terminator.length))).length)
        (ps + 1 + 15 + (toString (sxv + (fileSize + object_terminator.length))).length)
        eof_marker)
        (ps + 1 + (toString (sxv + (fileSize + object_terminator.length))).length + 17) := by
    simp only [patch_trailer, hslice, hsxv]
  have hmain := hstage1.trans (hstage2.trans hstage3)
  have hre2 : H ++ entries_bytes (es.map fun e =>
      (e.1 + (fileSize + object_terminator.length), e.2)) ++ (T1 ++ D ++ T2) =
      (H ++ entries_bytes (es.map fun e =>
        (e.1 + (fileSize + object_terminator.length), e.2)) ++ T1) ++ (D ++ T2) := by
    simp [List.append_assoc]
  rw [hre2] at hmain
  exact hmain

set_option maxHeartbeats 1000000 in
/-- Closed form of a successful document-tail patch: with the anchors at
`px`/`po`/`ps`/`pe`, the buffer split into header part `H`, serialized
entries, gap `T1`, trailer-pointer digits `D` and tail `T2`, every entry
offset and the trailer pointer come out shifted by
`out_size = fileSize + len(object_terminator)`, the end-of-file marker is
written after the new pointer, the rest is zeroed, and the buffer has grown
by exactly 2 bytes (the 7-byte marker replaces a 5-byte slice). -/
lemma patchPdfTail_success (pdfBytes : List Nat) (fileSize : Nat)
    (px po ps pe sxv : Nat) (es : List (Nat × List Nat)) (H T1 D T2 : List Nat)
    (hbuf : object_terminator ++ pdfBytes = H ++ entries_bytes es ++ (T1 ++ D ++ T2))
    (hx : pyFind (object_terminator ++ pdfBytes) xref_key 0 = Int.ofNat px)
    (ho : pyFind (object_terminator ++ pdfBytes) zeros_key (px + 1) = Int.ofNat po)
    (hs : pyFind (object_terminator ++ pdfBytes) startxref_key (px + 1) = Int.ofNat ps)
    (he : pyFind (object_terminator ++ pdfBytes) [10] (ps + 1 + 11) = Int.ofNat pe)
    (hpe : 0 < pe)
    (hH : H.length = po + 1)
    (hcount : parse_xref_count (pySlice (object_terminator ++ pdfBytes) (px + 1) (po + 1)) =
      some es.length)
    (hes : ∀ e ∈ es, EntryOk (fileSize + object_terminator.length) e)
    (hT1 : po + 1 + (entries_bytes es).length + T1.length = ps + 1 + 10)
    (hD : ps + 1 + 10 + D.length = pe)
    (hsxv : parsePyNat D = some sxv)
    (hroom : ps + 1 + 15 + (toString (sxv + (fileSize + object_terminator.length))).length ≤
      (object_terminator ++ pdfBytes).length) :
    patchPdfTail pdfBytes fileSize =
      H ++ entries_bytes (es.map fun e =>
          (e.1 + (fileSize + object_terminator.length), e.2)) ++ T1 ++
        strBytes (toString (sxv + (fileSize + object_terminator.length))) ++ eof_marker ++
        List.replicate ((object_terminator ++ pdfBytes).length + 2 -
          (ps + 1 + (toString (sxv + (fileSize + object_terminator.length))).length + 17)) 0 ∧
    (patchPdfTail pdfBytes fileSize).length = (object_terminator ++ pdfBytes).length + 2 := by
  have hmain := patchPdfTail_main pdfBytes fileSize px po ps pe sxv es H T1 D T2
    hbuf hx ho hs he hpe hH hcount hes hT1 hD hsxv
  have hEB : (entries_bytes (es.map fun e =>
      (e.1 + (fileSize + object_terminator.length), e.2))).length =
      (entries_bytes es).length := entries_bytes_length_map _ es hes
  have hbuflen : (object_terminator ++ pdfBytes).length =
      po + 1 + (entries_bytes es).length + (T1.length + D.length + T2.length) := by
    rw [hbuf]
    simp only [List.length_append, hH]
  have hXl : (H ++ entries_bytes (es.map fun e =>
      (e.1 + (fileSize + object_terminator.length), e.2)) ++ T1).length = ps + 1 + 10 := by
    simp only [List.length_append, hH, hEB]
    omega
  have hlen_eq : ((H ++ entries_bytes (es.map fun e =>
      (e.1 + (fileSize + object_terminator.length), e.2)) ++ T1) ++ (D ++ T2)).length =
      (object_terminator ++ pdfBytes).length := by
    rw [hbuflen]
    simp only [List.length_append, hH, hEB]
    omega
  have htr := trailer_patch_form
    (H ++ entries_bytes (es.map fun e =>
      (e.1 + (fileSize + object_terminator.length), e.2)) ++ T1) D T2
    (strBytes (toString (sxv + (fileSize + object_terminator.length)))) (ps + 1)
    (toString (sxv + (fileSize + object_terminator.length))).length
    (strBytes_length _) hXl (by rw [hlen_eq]; exact hroom)
  constructor
  · rw [hmain, htr.1, hlen_eq]
  · rw [hmain, htr.2, hlen_eq]

set_option maxRecDepth 8192 in
/-- C1 counterexample: the claim says the image-offset field is the exact
byte position of the first image byte for every run.  With 300 extra bytes
the header buffer silently grows to 326 bytes, but the offset was computed
from the buffer's pre-splice length: the field still says 296
(byte 296 of the output is an extra-bytes filler byte 65), while the single
image byte 137 actually sits at offset 334. -/
theorem c1_counterexample :
    (run_beheader [137] none (List.replicate 300 65) [0, 0, 0, 4] none 0).map
      (fun out => (fromBytesLE (pySlice out 18 22), pySlice out 296 297,
        out.length, pySlice out 334 335)) = some (296, [65], 335, [137]) ∧
    (65 : Nat) ≠ 137 :=
  ⟨by rfl, by decide⟩

/-- C1 (amended): the little-endian image-offset field written at bytes
18-21 always encodes `288 + 8 + len(hypertext_bytes_utf8)` (the header
region's pre-splice length plus the wrapper-box header plus the hypertext
bytes), and — provided every header splice fits the 288-byte budget
(`header_splices_fit`: the extra bytes and comment marker, and on a
document-attached run also the document prefix and the object-header string
spliced at `36 + 2*len(extra)`, keep the buffer at 288 bytes) — that value
is the exact byte position of the first image byte in the assembled output,
for any bytes appended after the assembled file. -/
theorem c1_image_offset_exact (png extra origBytes out tail : List Nat)
    (html pdf : Option (List Nat)) (fuel : Nat)
    (hfit : header_splices_fit extra pdf (8 + (html_bytes_of html).length + png.length)
      (strip_leading_box origBytes).length fuel)
    (hrun : run_beheader png html extra origBytes pdf fuel = some out) :
    fromBytesLE (pySlice out 18 22) = 288 + 8 + (html_bytes_of html).length ∧
    pySlice (out ++ tail) (288 + 8 + (html_bytes_of html).length)
      (288 + 8 + (html_bytes_of html).length + png.length) = png := by
  obtain ⟨h1, -, h3⟩ :=
    run_beheader_slices png extra origBytes out tail html pdf fuel hfit hrun
  exact ⟨h1, h3⟩

set_option maxRecDepth 8192 in
theorem c1_image_offset_exact_witness :
    header_splices_fit [] (some [37, 80, 68, 70, 45, 49, 46, 52, 120])
      (8 + (html_bytes_of none).length + ([5] : List Nat).length)
      (strip_leading_box [0, 0, 0, 4]).length 100 ∧
    (fromBytesLE (pySlice ((run_beheader [5] none []
        [0, 0, 0, 4] (some [37, 80, 68, 70, 45, 49, 46, 52, 120]) 100).getD []) 18 22) =
        288 + 8 + (html_bytes_of none).length ∧
      pySlice ((run_beheader [5] none []
        [0, 0, 0, 4] (some [37, 80, 68, 70, 45, 49, 46, 52, 120]) 100).getD [] ++ [1, 2, 3])
        (288 + 8 + (html_bytes_of none).length)
        (288 + 8 + (html_bytes_of none).length + ([5] : List Nat).length) = [5]) :=
  ⟨by decide, c1_image_offset_exact [5] [] [0, 0, 0, 4] _ [1, 2, 3] none
    (some [37, 80, 68, 70, 45, 49, 46, 52, 120]) 100 (by decide) (by rfl)⟩

set_option maxRecDepth 8192 in
/-- C10 counterexample: the claim says that with a hypertext fragment the
image still starts exactly at the written image offset.  With hypertext
`"Z"` (wrapped to 75 markup bytes) and 300 extra bytes, the field says
`296 + 75 = 371`, but byte 371 of the output is a markup byte (105) and the
image byte 137 actually sits at `334 + 75 = 409`. -/
theorem c10_counterexample :
    (run_beheader [137] (some [90]) (List.replicate 300 65) [0, 0, 0, 4] none 0).map
      (fun out => (fromBytesLE (pySlice out 18 22), pySlice out 371 372,
        pySlice out 409 410)) = some (371, [105], [137]) ∧
    (105 : Nat) ≠ 137 :=
  ⟨by rfl, by decide⟩

/-- C10 (amended): when a hypertext fragment is supplied, the wrapper-box
payload holds the fragment wrapped in the fixed markup (never the raw bytes:
the wrapped text is 74 bytes longer), the image-offset field accounts for
the wrapped length, and — provided every header splice fits the 288-byte
budget (`header_splices_fit`, covering on document-attached runs also the
document prefix and object-header splices) — the image starts exactly at
that offset. -/
theorem c10_wrapped_hypertext (png raw extra origBytes out tail : List Nat)
    (pdf : Option (List Nat)) (fuel : Nat)
    (hfit : header_splices_fit extra pdf
      (8 + (html_bytes_of (some raw)).length + png.length)
      (strip_leading_box origBytes).length fuel)
    (hrun : run_beheader png (some raw) extra origBytes pdf fuel = some out) :
    html_bytes_of (some raw) = html_prefix_markup ++ raw ++ html_suffix_markup ∧
    html_bytes_of (some raw) ≠ raw ∧
    fromBytesLE (pySlice out 18 22) = 288 + 8 + (html_bytes_of (some raw)).length ∧
    pySlice (out ++ tail) (288 + 8) (288 + 8 + (html_bytes_of (some raw)).length) =
      html_bytes_of (some raw) ∧
    pySlice (out ++ tail) (288 + 8 + (html_bytes_of (some raw)).length)
      (288 + 8 + (html_bytes_of (some raw)).length + png.length) = png := by
  obtain ⟨h1, h2, h3⟩ :=
    run_beheader_slices png extra origBytes out tail (some raw) pdf fuel hfit hrun
  refine ⟨rfl, ?_, h1, h2, h3⟩
  intro heq
  have hwl : (html_bytes_of (some raw)).length = raw.length := congrArg List.length heq
  have hpl : html_prefix_markup.length = 64 := rfl
  have hsl : html_suffix_markup.length = 10 := rfl
  simp only [html_bytes_of, List.length_append, hpl, hsl] at hwl
  omega

set_option maxRecDepth 8192 in
theorem c10_wrapped_hypertext_witness :
    header_splices_fit [] none (8 + (html_bytes_of (some [88])).length +
      ([7] : List Nat).length) (strip_leading_box [0, 0, 0, 4]).length 0 ∧
    (html_bytes_of (some [88]) = html_prefix_markup ++ [88] ++ html_suffix_markup ∧
      html_bytes_of (some [88]) ≠ [88] ∧
      fromBytesLE (pySlice
        ((run_beheader [7] (some [88]) [] [0, 0, 0, 4] none 0).getD []) 18 22) =
        288 + 8 + (html_bytes_of (some [88])).length ∧
      pySlice ((run_beheader [7] (some [88]) [] [0, 0, 0, 4] none 0).getD [] ++ [])
        (288 + 8) (288 + 8 + (html_bytes_of (some [88])).length) =
        html_bytes_of (some [88]) ∧
      pySlice ((run_beheader [7] (some [88]) [] [0, 0, 0, 4] none 0).getD [] ++ [])
        (288 + 8 + (html_bytes_of (some [88])).length)
        (288 + 8 + (html_bytes_of (some [88])).length + ([7] : List Nat).length) = [7]) :=
  ⟨by decide,
    c10_wrapped_hypertext [7] [88] [] [0, 0, 0, 4] _ [] none 0 (by decide) (by rfl)⟩

set_option maxRecDepth 8192 in
/-- C7 counterexample: the claim says the header synthesizer always returns
exactly 288 bytes and fails with `LayoutOverflow` when the spliced content
exceeds the budget.  With 300 extra bytes the Python slice assignment
silently grows the bytearray: the build succeeds and returns 326 bytes.
On a document-attached run even 120 extra bytes (within `26 + 120 ≤ 288`)
grow the buffer to 308 bytes, because the object-header string is spliced
at `36 + 2*len(extra)`; and with 262 extra bytes the cursor write of line
146 raises an `IndexError` (modelled as `none`) — never a
`LayoutOverflow`. -/
theorem c7_counterexample :
    (build_ftyp_buffer 1 0 [0, 0, 0, 9, 1, 1, 1, 1, 1] (List.replicate 300 65)
      none 0 0).map List.length = some 326 ∧
    (build_ftyp_buffer 1 0 [0, 0, 0, 9, 1, 1, 1, 1, 1] (List.replicate 120 65)
      (some [37, 80, 68, 70, 45, 49, 46, 52, 120]) 0 100).map List.length = some 308 ∧
    26 + (List.replicate 120 65 : List Nat).length ≤ 288 ∧
    build_ftyp_buffer 1 0 [0, 0, 0, 9, 1, 1, 1, 1, 1] (List.replicate 262 65)
      (some [37, 80, 68, 70, 45, 49, 46, 52, 120]) 0 100 = none ∧
    (326 : Nat) ≠ 288 ∧ (308 : Nat) ≠ 288 := by
  refine ⟨by rfl, by rfl, by decide, by rfl, by decide, by decide⟩



/-- C6 (amended): each of the count entries is read as a 10-character
decimal field, incremented by `out_size`, and written back as
`pad_left(new_offset, 10)[:10]`: a 10-byte field equal to the
zero-left-padded decimal when the value fits ten digits, and silently
truncated to the ten most significant characters when it does not — no
`OffsetOverflow` failure exists in the code. -/
theorem c6_entry_rerendered (A B mid : List Nat) (off out : Nat)
    (h10 : (strBytes (pad_left off 10)).length = 10)
    (hp : parsePyNat (strBytes (pad_left off 10)) = some off) :
    patchEntries out (A ++ entry_bytes off mid ++ B) A.length 1 =
      Sum.inr (A ++ (strBytes (pad_left (off + out) 10)).take 10 ++
        (mid ++ [10] ++ B)) := by
  have hshape : A ++ entry_bytes off mid ++ B =
      A ++ strBytes (pad_left off 10) ++ (mid ++ [10] ++ B) := by
    unfold entry_bytes
    simp [List.append_assoc]
  rw [hshape]
  simp only [patchEntries, slice_head_entry A _ _ h10, hp]
  have harg : A.length + 10 = A.length + (strBytes (pad_left off 10)).length := by
    omega
  rw [harg, pySetSlice_append]

theorem c6_entry_rerendered_witness :
    (strBytes (pad_left 17 10)).length = 10 ∧
    parsePyNat (strBytes (pad_left 17 10)) = some 17 ∧
    patchEntries 324 ([] ++ entry_bytes 17 (strBytes " 00000 n ") ++ [])
      ([] : List Nat).length 1 =
      Sum.inr ([] ++ (strBytes (pad_left (17 + 324) 10)).take 10 ++
        (strBytes " 00000 n " ++ [10] ++ [])) :=
  ⟨by decide, by decide,
    c6_entry_rerendered [] [] (strBytes " 00000 n ") 17 324 (by decide) (by decide)⟩

set_option maxRecDepth 8192 in
/-- C4 counterexample: the claim says a successful patch makes every stored
offset equal `original + bytes_prepended`.  On a document whose second entry
holds `9999999999`, with 324 bytes prepended, the patch completes without
error (the trailer is rewritten to `351` and the buffer shows the success
shape), but the stored field is the truncated `1000000032`, which is not
`9999999999 + 324`. -/
theorem c4_counterexample :
    pySlice (patchPdfTail (strBytes "1 0 obj\x0AAB\x0Aendobj\x0Axref\x0A0 2\x0A0000000000 65535 f \x0A9999999999 00000 n \x0Atrailer\x0Astartxref\x0A27\x0A%%EOF\x0A") 306) 65 75 =
      strBytes "1000000032" ∧
    pySlice (patchPdfTail (strBytes "1 0 obj\x0AAB\x0Aendobj\x0Axref\x0A0 2\x0A0000000000 65535 f \x0A9999999999 00000 n \x0Atrailer\x0Astartxref\x0A27\x0A%%EOF\x0A") 306) 103 106 =
      strBytes "351" ∧
    parsePyNat (strBytes "1000000032") = some 1000000032 ∧
    1000000032 ≠ 9999999999 + 324 := by
  refine ⟨by rfl, by rfl, by rfl, by decide⟩

/-- C4 (amended): for a document-attached run in which the anchors are
found and every incremented offset still fits ten decimal digits, the
patched tail stores, for every cross-reference entry, the 10-digit
zero-padded decimal of `original + bytes_prepended`, and for the trailer
pointer the decimal of `original + bytes_prepended`, where
`bytes_prepended` is the total length of header region + wrapper box +
media remainder + object terminator; subtracting `bytes_prepended` back
reproduces every original offset (invertibility). -/
theorem c4_patch_offsets_shifted (hdrRegion wrapperBox mediaRest pdfBytes : List Nat)
    (px po ps pe sxv : Nat) (es : List (Nat × List Nat)) (H T1 D T2 : List Nat)
    (hbuf : object_terminator ++ pdfBytes = H ++ entries_bytes es ++ (T1 ++ D ++ T2))
    (hx : pyFind (object_terminator ++ pdfBytes) xref_key 0 = Int.ofNat px)
    (ho : pyFind (object_terminator ++ pdfBytes) zeros_key (px + 1) = Int.ofNat po)
    (hs : pyFind (object_terminator ++ pdfBytes) startxref_key (px + 1) = Int.ofNat ps)
    (he : pyFind (object_terminator ++ pdfBytes) [10] (ps + 1 + 11) = Int.ofNat pe)
    (hpe : 0 < pe)
    (hH : H.length = po + 1)
    (hcount : parse_xref_count (pySlice (object_terminator ++ pdfBytes) (px + 1) (po + 1)) =
      some es.length)
    (hes : ∀ e ∈ es, EntryOk ((hdrRegion ++ wrapperBox ++ mediaRest).length +
      object_terminator.length) e)
    (hT1 : po + 1 + (entries_bytes es).length + T1.length = ps + 1 + 10)
    (hD : ps + 1 + 10 + D.length = pe)
    (hsxv : parsePyNat D = some sxv)
    (hroom : ps + 1 + 15 + (toString (sxv + ((hdrRegion ++ wrapperBox ++ mediaRest).length +
      object_terminator.length))).length ≤ (object_terminator ++ pdfBytes).length) :
    patchPdfTail pdfBytes (hdrRegion ++ wrapperBox ++ mediaRest).length =
      H ++ entries_bytes (es.map fun e =>
          (e.1 + ((hdrRegion ++ wrapperBox ++ mediaRest).length +
            object_terminator.length), e.2)) ++ T1 ++
        strBytes (toString (sxv + ((hdrRegion ++ wrapperBox ++ mediaRest).length +
          object_terminator.length))) ++ eof_marker ++
        List.replicate ((object_terminator ++ pdfBytes).length + 2 -
          (ps + 1 + (toString (sxv + ((hdrRegion ++ wrapperBox ++ mediaRest).length +
            object_terminator.length))).length + 17)) 0 ∧
    (∀ e ∈ es,
      parsePyNat (strBytes (pad_left (e.1 + ((hdrRegion ++ wrapperBox ++ mediaRest).length +
        object_terminator.length)) 10)) =
        some (e.1 + ((hdrRegion ++ wrapperBox ++ mediaRest).length +
          object_terminator.length)) ∧
      e.1 + ((hdrRegion ++ wrapperBox ++ mediaRest).length + object_terminator.length) -
        ((hdrRegion ++ wrapperBox ++ mediaRest).length + object_terminator.length) = e.1) ∧
    sxv + ((hdrRegion ++ wrapperBox ++ mediaRest).length + object_terminator.length) -
      ((hdrRegion ++ wrapperBox ++ mediaRest).length + object_terminator.length) = sxv := by
  have hm := patchPdfTail_success pdfBytes (hdrRegion ++ wrapperBox ++ mediaRest).length
    px po ps pe sxv es H T1 D T2 hbuf hx ho hs he hpe hH hcount hes hT1 hD hsxv hroom
  refine ⟨hm.1, ?_, by omega⟩
  intro e he'
  obtain ⟨-, -, -, -, -, hp2⟩ := hes e he'
  exact ⟨hp2, by omega⟩

set_option maxRecDepth 8192 in
theorem c4_patch_offsets_shifted_witness :
    patchPdfTail (strBytes "1 0 obj\x0AAB\x0Aendobj\x0Axref\x0A0 2\x0A0000000000 65535 f \x0A0000000017 00000 n \x0Atrailer\x0Astartxref\x0A27\x0A%%EOF\x0A")
      (List.replicate 288 0 ++ List.replicate 10 1 ++ List.replicate 8 2).length =
      strBytes "\x0Aendstream\x0Aendobj\x0A1 0 obj\x0AAB\x0Aendobj\x0Axref\x0A0 2\x0A0000000324 65535 f \x0A0000000341 00000 n \x0Atrailer\x0Astartxref\x0A351\x0A%%EOF\x0A" ++
        [0] := by
  have h := c4_patch_offsets_shifted (List.replicate 288 0) (List.replicate 10 1)
    (List.replicate 8 2)
    (strBytes "1 0 obj\x0AAB\x0Aendobj\x0Axref\x0A0 2\x0A0000000000 65535 f \x0A0000000017 00000 n \x0Atrailer\x0Astartxref\x0A27\x0A%%EOF\x0A")
    35 44 92 105 27 [(0, strBytes " 65535 f "), (17, strBytes " 00000 n ")]
    (strBytes "\x0Aendstream\x0Aendobj\x0A1 0 obj\x0AAB\x0Aendobj\x0Axref\x0A0 2\x0A")
    (strBytes "trailer\x0Astartxref\x0A") (strBytes "27") (strBytes "\x0A%%EOF\x0A")
    (by decide) (by decide) (by decide) (by decide) (by decide) (by decide) (by decide)
    (by decide) (by decide) (by decide) (by decide) (by decide) (by decide)
  rw [h.1]
  decide

end Beheader
